import Mathlib

/-!
Shallow embedding of the derivatives-analytics core (`backend/options.py`)
over the real numbers, together with theorems settling the specification's
claims about it.

The Python code works with IEEE doubles, `numpy` arrays and `scipy.stats`;
here every numeric quantity is a real number, `scipy.stats.norm.pdf/cdf`
become the Gaussian density and its distribution function (defined below as
an integral), `numpy` arrays become functions out of `ℕ`, and the draws the
code takes from the process-global `numpy` generator are passed as an
explicit argument `dW` so that properties can be stated for every choice of
draws.  Option kinds are strings, exactly as in the source, which compares
`option_type == "Call"` and otherwise falls into the `else` branch.
-/

open MeasureTheory

/-- Embedding of `scipy.stats.norm.pdf`: the standard normal density. -/
noncomputable def normPdf (x : ℝ) : ℝ :=
  Real.exp (-(x ^ 2) / 2) / Real.sqrt (2 * Real.pi)

/-- Embedding of `scipy.stats.norm.cdf`: the standard normal distribution function,
written as a set integral of the unnormalised Gaussian. -/
noncomputable def normCdf (x : ℝ) : ℝ :=
  (∫ t in Set.Iic x, Real.exp (-(t ^ 2) / 2)) / Real.sqrt (2 * Real.pi)

/-- The dictionary returned by `calculate_black_scholes`. -/
structure PricingResult where
  Price : ℝ
  Delta : ℝ
  Gamma : ℝ
  Vega : ℝ
  Theta : ℝ
  Rho : ℝ

/-- The local variable `d1` of `calculate_black_scholes`. -/
noncomputable def bs_d1 (S K T r sigma : ℝ) : ℝ :=
  (Real.log (S / K) + (r + 0.5 * sigma ^ 2) * T) / (sigma * Real.sqrt T)

/-- The local variable `d2` of `calculate_black_scholes`. -/
noncomputable def bs_d2 (S K T r sigma : ℝ) : ℝ :=
  bs_d1 S K T r sigma - sigma * Real.sqrt T

/-- Embedding of `calculate_black_scholes(S, K, T, r, sigma, option_type)` from
`backend/options.py`.  The degenerate branch (`T <= 0 or sigma <= 0`)
returns all-zero fields; otherwise the Black-Scholes formulas are applied,
with the scaling `vega/100`, `theta/365`, `rho/100` performed at the return
statement exactly as in the source. -/
noncomputable def calculate_black_scholes (S K T r sigma : ℝ)
    (option_type : String) : PricingResult :=
  if T ≤ 0 ∨ sigma ≤ 0 then
    ⟨0, 0, 0, 0, 0, 0⟩
  else if option_type = "Call" then
    { Price := S * normCdf (bs_d1 S K T r sigma) -
        K * Real.exp (-r * T) * normCdf (bs_d2 S K T r sigma)
      Delta := normCdf (bs_d1 S K T r sigma)
      Gamma := normPdf (bs_d1 S K T r sigma) / (S * sigma * Real.sqrt T)
      Vega := S * Real.sqrt T * normPdf (bs_d1 S K T r sigma) / 100
      Theta := (-(S * normPdf (bs_d1 S K T r sigma) * sigma) / (2 * Real.sqrt T)
                  - r * K * Real.exp (-r * T) * normCdf (bs_d2 S K T r sigma)) / 365
      Rho := K * T * Real.exp (-r * T) * normCdf (bs_d2 S K T r sigma) / 100 }
  else
    { Price := K * Real.exp (-r * T) * normCdf (-bs_d2 S K T r sigma) -
        S * normCdf (-bs_d1 S K T r sigma)
      Delta := -normCdf (-bs_d1 S K T r sigma)
      Gamma := normPdf (bs_d1 S K T r sigma) / (S * sigma * Real.sqrt T)
      Vega := S * Real.sqrt T * normPdf (bs_d1 S K T r sigma) / 100
      Theta := (-(S * normPdf (bs_d1 S K T r sigma) * sigma) / (2 * Real.sqrt T)
                  + r * K * Real.exp (-r * T) * normCdf (-bs_d2 S K T r sigma)) / 365
      Rho := -(K * T * Real.exp (-r * T) * normCdf (-bs_d2 S K T r sigma)) / 100 }

/-- The dictionary returned by `calculate_crr_tree`. -/
structure LatticeResult where
  Price : ℝ
  u : ℝ
  d : ℝ
  p : ℝ

/-- One iteration of the backward-induction loop of `calculate_crr_tree`:
it turns column `i+1` of the option tree into column `i`, sending node `j`
to `discount * (p * col[j] + (1-p) * col[j+1])`. -/
noncomputable def crr_backstep (discount p : ℝ) (col : ℕ → ℝ) : ℕ → ℝ :=
  fun j => discount * (p * col j + (1 - p) * col (j + 1))

/-- The terminal column of the option tree in `calculate_crr_tree`: node
`j` holds the payoff of the terminal underlying value `S * u^(N-j) * d^j`. -/
noncomputable def crr_terminal (S K u d : ℝ) (N : ℕ) (option_type : String) :
    ℕ → ℝ :=
  fun j =>
    if option_type = "Call" then max (S * u ^ (N - j) * d ^ j - K) 0
    else max (K - S * u ^ (N - j) * d ^ j) 0

/-- The local variable `dt = T / N` of `calculate_crr_tree`. -/
noncomputable def crr_dt (T : ℝ) (N : ℕ) : ℝ := T / N

/-- The up factor `u = exp(sigma * sqrt(dt))` of `calculate_crr_tree`. -/
noncomputable def crr_u (T sigma : ℝ) (N : ℕ) : ℝ :=
  Real.exp (sigma * Real.sqrt (crr_dt T N))

/-- The down factor `d = 1 / u` of `calculate_crr_tree`. -/
noncomputable def crr_down (T sigma : ℝ) (N : ℕ) : ℝ := 1 / crr_u T sigma N

/-- The risk-neutral probability `p = (exp(r dt) - d) / (u - d)` of
`calculate_crr_tree`. -/
noncomputable def crr_p (T r sigma : ℝ) (N : ℕ) : ℝ :=
  (Real.exp (r * crr_dt T N) - crr_down T sigma N) /
    (crr_u T sigma N - crr_down T sigma N)

/-- The per-step discount factor `exp(-r dt)` of `calculate_crr_tree`. -/
noncomputable def crr_discount (T r : ℝ) (N : ℕ) : ℝ :=
  Real.exp (-r * crr_dt T N)

/-- Embedding of `calculate_crr_tree(S, K, T, r, sigma, N, option_type)` from
`backend/options.py`.  The backward loop over `i = N-1, ..., 0` is the
`N`-fold iteration of `crr_backstep` applied to the terminal column, and
the returned price is node `0` of the resulting column `0`. -/
noncomputable def calculate_crr_tree (S K T r sigma : ℝ) (N : ℕ)
    (option_type : String) : LatticeResult :=
  if T ≤ 0 ∨ sigma ≤ 0 then
    ⟨0, 0, 0, 0⟩
  else
    { Price := ((crr_backstep (crr_discount T r N) (crr_p T r sigma N))^[N]
        (crr_terminal S K (crr_u T sigma N) (crr_down T sigma N) N option_type)) 0
      u := crr_u T sigma N
      d := crr_down T sigma N
      p := crr_p T r sigma N }

/-- A single GBM path of `simulate_gbm_paths`: row `i` of the `paths`
array, as a function of the time step, given the row `z` of standard-normal
draws for that path.  Step `0` is `S0`; each later step multiplies the
previous price by `exp((r - 0.5 sigma^2) dt + sigma sqrt(dt) z[t-1])`. -/
noncomputable def gbm_path (S0 r sigma dt : ℝ) (z : ℕ → ℝ) : ℕ → ℝ
  | 0 => S0
  | t + 1 => gbm_path S0 r sigma dt z t *
      Real.exp ((r - 0.5 * sigma ^ 2) * dt + sigma * Real.sqrt dt * z t)

/-- Embedding of `simulate_gbm_paths(S0, r, sigma, T, n_steps, n_paths)` from
`backend/options.py`, returning the `paths` array as a function of
(path id, time step).  In the source the matrix `dW` of standard-normal
draws is produced by `np.random.standard_normal` from the process-global
generator (there is no generator or seed parameter); here those consumed
draws are the explicit argument `dW`, so the simulated prices can be
reasoned about for every choice of draws.  `n_paths` only fixes the number
of rows of the array and does not enter any entry's value. -/
noncomputable def simulate_gbm_paths (S0 r sigma T : ℝ) (n_steps n_paths : ℕ)
    (dW : ℕ → ℕ → ℝ) : ℕ → ℕ → ℝ :=
  fun i => gbm_path S0 r sigma (T / n_steps) (dW i)

/-- The per-path hedge state of `simulate_delta_hedging`: at time step `t`
the pair `(deltas[i, t], cash_accounts[i, t])` for the path `path`, exactly
following the two loops of the source (step 0 uses the Black-Scholes delta
at `path 0`; later steps use the Black-Scholes delta while
`T - t*dt > 0.001` and the terminal exercise rule afterwards, and grow the
cash account at the risk-free rate while financing the delta change). -/
noncomputable def hedge_state (S0 K T r sigma : ℝ) (n_steps : ℕ)
    (option_type : String) (path : ℕ → ℝ) : ℕ → ℝ × ℝ
  | 0 =>
    let S := path 0
    let delta := (calculate_black_scholes S K T r sigma option_type).Delta
    let initial_price := (calculate_black_scholes S0 K T r sigma option_type).Price
    (delta, initial_price - delta * S)
  | t + 1 =>
    let dt := T / n_steps
    let ttm := T - (t + 1) * dt
    let S := path (t + 1)
    let new_delta :=
      if ttm > 0.001 then
        (calculate_black_scholes S K ttm r sigma option_type).Delta
      else if option_type = "Call" then
        (if S > K then 1.0 else 0.0)
      else
        (if S < K then -1.0 else 0.0)
    let prev := hedge_state S0 K T r sigma n_steps option_type path t
    (new_delta, prev.2 * Real.exp (r * dt) - (new_delta - prev.1) * S)

/-- The `deltas` array of `simulate_delta_hedging`, at (path id, step). -/
noncomputable def deltas (S0 K T r sigma : ℝ) (n_steps n_paths : ℕ)
    (option_type : String) (dW : ℕ → ℕ → ℝ) (i t : ℕ) : ℝ :=
  (hedge_state S0 K T r sigma n_steps option_type
    (simulate_gbm_paths S0 r sigma T n_steps n_paths dW i) t).1

/-- The `cash_accounts` array of `simulate_delta_hedging`. -/
noncomputable def cash_accounts (S0 K T r sigma : ℝ) (n_steps n_paths : ℕ)
    (option_type : String) (dW : ℕ → ℕ → ℝ) (i t : ℕ) : ℝ :=
  (hedge_state S0 K T r sigma n_steps option_type
    (simulate_gbm_paths S0 r sigma T n_steps n_paths dW i) t).2

/-- The `portfolio_values` array of `simulate_delta_hedging`:
`deltas[i,t] * S + cash_accounts[i,t]` at the current spot. -/
noncomputable def portfolio_values (S0 K T r sigma : ℝ) (n_steps n_paths : ℕ)
    (option_type : String) (dW : ℕ → ℕ → ℝ) (i t : ℕ) : ℝ :=
  deltas S0 K T r sigma n_steps n_paths option_type dW i t *
      simulate_gbm_paths S0 r sigma T n_steps n_paths dW i t +
    cash_accounts S0 K T r sigma n_steps n_paths option_type dW i t

/-- One row of the list returned by `calculate_stress_scenarios`. -/
structure ScenarioResult where
  name : String
  spot : ℝ
  vol : ℝ
  price : ℝ
  pnl : ℝ

/-- Embedding of `calculate_stress_scenarios(S, K, T, r, sigma, option_type)` from
`backend/options.py`: the fixed shock grid, the vol floor
`max(0.05, sigma * (1 + vol_chg))`, repricing through
`calculate_black_scholes`, and `pnl = new_price - base_price`. -/
noncomputable def calculate_stress_scenarios (S K T r sigma : ℝ)
    (option_type : String) : List ScenarioResult :=
  let grid : List (String × ℝ × ℝ) :=
    [("Crash -20%", -0.20, 0.50),
     ("Bear -10%", -0.10, 0.25),
     ("Base Case", 0.00, 0.00),
     ("Bull +10%", 0.10, -0.10),
     ("Rally +20%", 0.20, -0.20)]
  let base_price := (calculate_black_scholes S K T r sigma option_type).Price
  grid.map (fun scen =>
    let new_S := S * (1 + scen.2.1)
    let new_sigma := max 0.05 (sigma * (1 + scen.2.2))
    let new_price := (calculate_black_scholes new_S K T r new_sigma option_type).Price
    { name := scen.1
      spot := new_S
      vol := new_sigma
      price := new_price
      pnl := new_price - base_price })

/-- The spec's description of the CRR option-value array: `option_value[j, i]`
as a function of node `j` and remaining depth `N - i`, with the terminal
column given by `payoff` and each earlier column given by the one-step
discounted expectation.  This is the comparison definition written from the
specification text, to be proved equal to what `calculate_crr_tree`
computes. -/
noncomputable def spec_value_aux (discount p : ℝ) (payoff : ℕ → ℝ) :
    ℕ → ℕ → ℝ
  | 0, j => payoff j
  | k + 1, j => discount * (p * spec_value_aux discount p payoff k j +
      (1 - p) * spec_value_aux discount p payoff k (j + 1))

/-- The spec's `option_value[j, i]` for a tree of depth `N` (columns past
`N` are the terminal column itself). -/
noncomputable def spec_option_value (discount p : ℝ) (payoff : ℕ → ℝ)
    (N j i : ℕ) : ℝ :=
  spec_value_aux discount p payoff (N - i) j

/-! ### Properties of the standard normal density and distribution function -/

lemma gauss_integrable : Integrable (fun t : ℝ => Real.exp (-(t ^ 2) / 2)) := by
  have h : (fun t : ℝ => Real.exp (-(t ^ 2) / 2)) =
      fun t : ℝ => Real.exp (-(1 / 2 : ℝ) * t ^ 2) := by
    funext t
    congr 1
    ring
  rw [h]
  exact integrable_exp_neg_mul_sq (by norm_num)

lemma gauss_integral_total :
    (∫ t : ℝ, Real.exp (-(t ^ 2) / 2)) = Real.sqrt (2 * Real.pi) := by
  have h : (fun t : ℝ => Real.exp (-(t ^ 2) / 2)) =
      fun t : ℝ => Real.exp (-(1 / 2 : ℝ) * t ^ 2) := by
    funext t
    congr 1
    ring
  rw [h, integral_gaussian]
  congr 1
  rw [div_div_eq_mul_div, div_one, mul_comm]

lemma sqrt_two_pi_pos : (0 : ℝ) < Real.sqrt (2 * Real.pi) := by
  positivity

lemma normPdf_nonneg (x : ℝ) : 0 ≤ normPdf x := by
  unfold normPdf
  positivity

lemma normCdf_nonneg (x : ℝ) : 0 ≤ normCdf x := by
  unfold normCdf
  apply div_nonneg _ (Real.sqrt_nonneg _)
  exact setIntegral_nonneg measurableSet_Iic fun t _ => (Real.exp_pos _).le

lemma normCdf_le_one (x : ℝ) : normCdf x ≤ 1 := by
  unfold normCdf
  rw [div_le_one sqrt_two_pi_pos]
  calc (∫ t in Set.Iic x, Real.exp (-(t ^ 2) / 2))
      ≤ ∫ t : ℝ, Real.exp (-(t ^ 2) / 2) :=
        setIntegral_le_integral gauss_integrable
          (Filter.Eventually.of_forall fun t => (Real.exp_pos _).le)
    _ = Real.sqrt (2 * Real.pi) := gauss_integral_total

lemma normCdf_neg (x : ℝ) : normCdf (-x) = 1 - normCdf x := by
  have hsum : (∫ t in Set.Iic x, Real.exp (-(t ^ 2) / 2)) +
      (∫ t in Set.Ioi x, Real.exp (-(t ^ 2) / 2)) = Real.sqrt (2 * Real.pi) := by
    rw [intervalIntegral.integral_Iic_add_Ioi gauss_integrable.integrableOn
      gauss_integrable.integrableOn]
    exact gauss_integral_total
  have h1 : (∫ t in Set.Iic (-x), Real.exp (-(t ^ 2) / 2)) =
      ∫ t in Set.Ioi x, Real.exp (-(t ^ 2) / 2) := by
    have h2 := integral_comp_neg_Iic (-x) fun t : ℝ => Real.exp (-(t ^ 2) / 2)
    simp only [neg_sq, neg_neg] at h2
    exact h2
  unfold normCdf
  rw [h1, eq_sub_iff_add_eq, div_add_div_same, add_comm, hsum,
    div_self (ne_of_gt sqrt_two_pi_pos)]

lemma normCdf_strictMono : StrictMono normCdf := by
  intro a b hab
  unfold normCdf
  rw [div_lt_div_iff_of_pos_right sqrt_two_pi_pos]
  rw [← sub_pos, intervalIntegral.integral_Iic_sub_Iic gauss_integrable.integrableOn
    gauss_integrable.integrableOn]
  exact intervalIntegral.intervalIntegral_pos_of_pos
    gauss_integrable.intervalIntegrable (fun t => Real.exp_pos _) hab

/-! ### Branch-reduction helpers for `calculate_black_scholes` -/

lemma bs_not_degenerate {T sigma : ℝ} (hT : 0 < T) (hs : 0 < sigma) :
    ¬(T ≤ 0 ∨ sigma ≤ 0) := by
  push_neg
  exact ⟨hT, hs⟩

lemma calculate_black_scholes_call_eq (S K T r sigma : ℝ)
    (hT : 0 < T) (hs : 0 < sigma) :
    calculate_black_scholes S K T r sigma "Call" =
      { Price := S * normCdf (bs_d1 S K T r sigma) -
          K * Real.exp (-r * T) * normCdf (bs_d2 S K T r sigma)
        Delta := normCdf (bs_d1 S K T r sigma)
        Gamma := normPdf (bs_d1 S K T r sigma) / (S * sigma * Real.sqrt T)
        Vega := S * Real.sqrt T * normPdf (bs_d1 S K T r sigma) / 100
        Theta := (-(S * normPdf (bs_d1 S K T r sigma) * sigma) / (2 * Real.sqrt T)
                    - r * K * Real.exp (-r * T) * normCdf (bs_d2 S K T r sigma)) / 365
        Rho := K * T * Real.exp (-r * T) * normCdf (bs_d2 S K T r sigma) / 100 } := by
  unfold calculate_black_scholes
  rw [if_neg (bs_not_degenerate hT hs), if_pos rfl]

lemma calculate_black_scholes_put_eq (S K T r sigma : ℝ)
    (hT : 0 < T) (hs : 0 < sigma) :
    calculate_black_scholes S K T r sigma "Put" =
      { Price := K * Real.exp (-r * T) * normCdf (-bs_d2 S K T r sigma) -
          S * normCdf (-bs_d1 S K T r sigma)
        Delta := -normCdf (-bs_d1 S K T r sigma)
        Gamma := normPdf (bs_d1 S K T r sigma) / (S * sigma * Real.sqrt T)
        Vega := S * Real.sqrt T * normPdf (bs_d1 S K T r sigma) / 100
        Theta := (-(S * normPdf (bs_d1 S K T r sigma) * sigma) / (2 * Real.sqrt T)
                    + r * K * Real.exp (-r * T) * normCdf (-bs_d2 S K T r sigma)) / 365
        Rho := -(K * T * Real.exp (-r * T) * normCdf (-bs_d2 S K T r sigma)) / 100 } := by
  unfold calculate_black_scholes
  rw [if_neg (bs_not_degenerate hT hs),
    if_neg (by decide : ¬(("Put" : String) = "Call"))]

lemma calculate_black_scholes_ne_call (S K T r sigma : ℝ) {kind : String}
    (h : ¬(kind = "Call")) :
    calculate_black_scholes S K T r sigma kind =
      calculate_black_scholes S K T r sigma "Put" := by
  unfold calculate_black_scholes
  by_cases hdeg : T ≤ 0 ∨ sigma ≤ 0
  · rw [if_pos hdeg, if_pos hdeg]
  · rw [if_neg hdeg, if_neg hdeg, if_neg h,
      if_neg (by decide : ¬(("Put" : String) = "Call"))]

lemma crr_terminal_ne_call (S K u d : ℝ) (N : ℕ) {kind : String}
    (h : ¬(kind = "Call")) :
    crr_terminal S K u d N kind = crr_terminal S K u d N "Put" := by
  funext j
  unfold crr_terminal
  rw [if_neg h, if_neg (by decide : ¬(("Put" : String) = "Call"))]

lemma calculate_crr_tree_ne_call (S K T r sigma : ℝ) (N : ℕ) {kind : String}
    (h : ¬(kind = "Call")) :
    calculate_crr_tree S K T r sigma N kind =
      calculate_crr_tree S K T r sigma N "Put" := by
  unfold calculate_crr_tree
  by_cases hdeg : T ≤ 0 ∨ sigma ≤ 0
  · rw [if_pos hdeg, if_pos hdeg]
  · rw [if_neg hdeg, if_neg hdeg, crr_terminal_ne_call S K _ _ N h]

/-! ### Claim theorems -/

/-- Claim C2, evaluated on the code at a concrete failing input: an
unrecognised option kind is *not* rejected; both pricers silently take the
`else` branch and return exactly the Put result. -/
theorem unrecognized_kind_is_treated_as_put :
    calculate_black_scholes 100 100 1 0.05 0.2 "Straddle" =
      calculate_black_scholes 100 100 1 0.05 0.2 "Put" ∧
    calculate_crr_tree 100 100 1 0.05 0.2 3 "Straddle" =
      calculate_crr_tree 100 100 1 0.05 0.2 3 "Put" :=
  ⟨calculate_black_scholes_ne_call 100 100 1 0.05 0.2 (by decide),
   calculate_crr_tree_ne_call 100 100 1 0.05 0.2 3 (by decide)⟩

/-- Claim C4: for non-positive maturity or volatility, the analytic pricer
returns the all-zero `PricingResult` and the lattice pricer returns price
`0` with `u = d = p = 0`; both functions are total, so neither throws. -/
theorem degenerate_policy_zero (S K T r sigma : ℝ) (N : ℕ) (kind : String)
    (hS : 0 < S) (hK : 0 < K) (h : T ≤ 0 ∨ sigma ≤ 0) :
    calculate_black_scholes S K T r sigma kind = ⟨0, 0, 0, 0, 0, 0⟩ ∧
    calculate_crr_tree S K T r sigma N kind = ⟨0, 0, 0, 0⟩ := by
  unfold calculate_black_scholes calculate_crr_tree
  rw [if_pos h, if_pos h]
  exact ⟨rfl, rfl⟩

theorem degenerate_policy_zero_witness :
    calculate_black_scholes 1 1 0 0 1 "Call" = ⟨0, 0, 0, 0, 0, 0⟩ ∧
    calculate_crr_tree 1 1 0 0 1 3 "Call" = ⟨0, 0, 0, 0⟩ :=
  degenerate_policy_zero 1 1 0 0 1 3 "Call" (by norm_num) (by norm_num)
    (Or.inl le_rfl)

/-- Claim C9: on every path, the time-0 hedge portfolio
`delta0 * S0 + cash0` with `cash0 = premium - delta0 * S0` equals the
Black-Scholes premium computed from the initial inputs, identically. -/
theorem hedge_initial_portfolio_eq_premium (S0 K T r sigma : ℝ)
    (n_steps n_paths : ℕ) (kind : String) (dW : ℕ → ℕ → ℝ) (i : ℕ) :
    portfolio_values S0 K T r sigma n_steps n_paths kind dW i 0 =
      (calculate_black_scholes S0 K T r sigma kind).Price := by
  simp only [portfolio_values, deltas, cash_accounts, hedge_state]
  ring

/-- Claim C10: for positive initial spot and every choice of draws, every
simulated GBM path starts exactly at `S0` and stays strictly positive. -/
theorem gbm_paths_start_at_S0_and_positive (S0 r sigma T : ℝ)
    (n_steps n_paths : ℕ) (dW : ℕ → ℕ → ℝ) (hS0 : 0 < S0) :
    ∀ i t, simulate_gbm_paths S0 r sigma T n_steps n_paths dW i 0 = S0 ∧
      0 < simulate_gbm_paths S0 r sigma T n_steps n_paths dW i t := by
  intro i t
  refine ⟨rfl, ?_⟩
  induction t with
  | zero => exact hS0
  | succ t ih =>
      have hstep : simulate_gbm_paths S0 r sigma T n_steps n_paths dW i (t + 1) =
          simulate_gbm_paths S0 r sigma T n_steps n_paths dW i t *
            Real.exp ((r - 0.5 * sigma ^ 2) * (T / n_steps) +
              sigma * Real.sqrt (T / n_steps) * dW i t) := rfl
      rw [hstep]
      exact mul_pos ih (Real.exp_pos _)

theorem gbm_paths_start_at_S0_and_positive_witness :
    simulate_gbm_paths 100 0 1 1 2 3 (fun _ _ => 0) 0 0 = 100 ∧
      0 < simulate_gbm_paths 100 0 1 1 2 3 (fun _ _ => 0) 0 2 :=
  gbm_paths_start_at_S0_and_positive 100 0 1 1 2 3 (fun _ _ => 0)
    (by norm_num) 0 2

/-- Claim C3, evaluated on the code: the simulated path values depend on
the standard-normal draws, which `simulate_gbm_paths` consumes from the
process-global `numpy` generator — its parameter list has no generator or
seed argument, so the entropy source is hard-wired rather than injected. -/
theorem gbm_output_depends_on_entropy_draws :
    simulate_gbm_paths 1 0 1 1 1 1 (fun _ _ => 0) 0 1 ≠
      simulate_gbm_paths 1 0 1 1 1 1 (fun _ _ => 1) 0 1 := by
  show (1 : ℝ) * Real.exp ((0 - 0.5 * 1 ^ 2) * ((1 : ℝ) / (1 : ℕ)) +
      1 * Real.sqrt ((1 : ℝ) / (1 : ℕ)) * 0) ≠
    (1 : ℝ) * Real.exp ((0 - 0.5 * 1 ^ 2) * ((1 : ℝ) / (1 : ℕ)) +
      1 * Real.sqrt ((1 : ℝ) / (1 : ℕ)) * 1)
  intro h
  rw [Nat.cast_one, div_one, Real.sqrt_one, one_mul, one_mul, one_mul,
    one_mul] at h
  have h2 := Real.exp_injective h
  norm_num at h2

/-- Claim C5: put-call parity.  For valid inputs the analytic Call price
minus the analytic Put price equals `S - K * exp(-r T)` exactly (in exact
real arithmetic; the spec allows floating-point tolerance). -/
theorem put_call_parity (S K T r sigma : ℝ)
    (hS : 0 < S) (hK : 0 < K) (hT : 0 < T) (hs : 0 < sigma) :
    (calculate_black_scholes S K T r sigma "Call").Price -
      (calculate_black_scholes S K T r sigma "Put").Price =
    S - K * Real.exp (-r * T) := by
  rw [calculate_black_scholes_call_eq S K T r sigma hT hs,
    calculate_black_scholes_put_eq S K T r sigma hT hs]
  dsimp only
  rw [normCdf_neg, normCdf_neg]
  ring

theorem put_call_parity_witness :
    (calculate_black_scholes 1 1 1 0 1 "Call").Price -
      (calculate_black_scholes 1 1 1 0 1 "Put").Price =
    1 - 1 * Real.exp (-0 * 1) :=
  put_call_parity 1 1 1 0 1 (by norm_num) (by norm_num) (by norm_num)
    (by norm_num)

/-- Claim C8: Greek bounds on the normal branch — Call delta in `[0, 1]`,
Put delta in `[-1, 0]`, and nonnegative gamma and vega for both kinds. -/
theorem greek_bounds (S K T r sigma : ℝ)
    (hS : 0 < S) (hK : 0 < K) (hT : 0 < T) (hs : 0 < sigma) :
    0 ≤ (calculate_black_scholes S K T r sigma "Call").Delta ∧
    (calculate_black_scholes S K T r sigma "Call").Delta ≤ 1 ∧
    -1 ≤ (calculate_black_scholes S K T r sigma "Put").Delta ∧
    (calculate_black_scholes S K T r sigma "Put").Delta ≤ 0 ∧
    0 ≤ (calculate_black_scholes S K T r sigma "Call").Gamma ∧
    0 ≤ (calculate_black_scholes S K T r sigma "Put").Gamma ∧
    0 ≤ (calculate_black_scholes S K T r sigma "Call").Vega ∧
    0 ≤ (calculate_black_scholes S K T r sigma "Put").Vega := by
  rw [calculate_black_scholes_call_eq S K T r sigma hT hs,
    calculate_black_scholes_put_eq S K T r sigma hT hs]
  dsimp only
  have hden : 0 < S * sigma * Real.sqrt T :=
    mul_pos (mul_pos hS hs) (Real.sqrt_pos.mpr hT)
  have hvega : 0 ≤ S * Real.sqrt T * normPdf (bs_d1 S K T r sigma) / 100 :=
    div_nonneg (mul_nonneg (mul_nonneg hS.le (Real.sqrt_nonneg T))
      (normPdf_nonneg _)) (by norm_num)
  refine ⟨normCdf_nonneg _, normCdf_le_one _, ?_, ?_, ?_, ?_, hvega, hvega⟩
  · have h := normCdf_le_one (-bs_d1 S K T r sigma)
    linarith
  · have h := normCdf_nonneg (-bs_d1 S K T r sigma)
    linarith
  · exact div_nonneg (normPdf_nonneg _) hden.le
  · exact div_nonneg (normPdf_nonneg _) hden.le

theorem greek_bounds_witness :
    0 ≤ (calculate_black_scholes 1 1 1 0 1 "Call").Delta ∧
    (calculate_black_scholes 1 1 1 0 1 "Call").Delta ≤ 1 ∧
    -1 ≤ (calculate_black_scholes 1 1 1 0 1 "Put").Delta ∧
    (calculate_black_scholes 1 1 1 0 1 "Put").Delta ≤ 0 ∧
    0 ≤ (calculate_black_scholes 1 1 1 0 1 "Call").Gamma ∧
    0 ≤ (calculate_black_scholes 1 1 1 0 1 "Put").Gamma ∧
    0 ≤ (calculate_black_scholes 1 1 1 0 1 "Call").Vega ∧
    0 ≤ (calculate_black_scholes 1 1 1 0 1 "Put").Vega :=
  greek_bounds 1 1 1 0 1 (by norm_num) (by norm_num) (by norm_num)
    (by norm_num)

/-- Claim C6: on the normal branch the analytic pricer computes `d1` and
`d2` as stated, the Call and Put price, delta, rho and raw theta by the
Black-Scholes formulas, the shared gamma and raw vega, and reports
`vega/100`, `theta/365`, `rho/100`. -/
theorem bs_normal_branch_formulas (S K T r sigma d1 d2 : ℝ)
    (hT : 0 < T) (hs : 0 < sigma)
    (hd1 : d1 = (Real.log (S / K) + (r + 0.5 * sigma ^ 2) * T) /
      (sigma * Real.sqrt T))
    (hd2 : d2 = d1 - sigma * Real.sqrt T) :
    calculate_black_scholes S K T r sigma "Call" =
      { Price := S * normCdf d1 - K * Real.exp (-r * T) * normCdf d2
        Delta := normCdf d1
        Gamma := normPdf d1 / (S * sigma * Real.sqrt T)
        Vega := S * Real.sqrt T * normPdf d1 / 100
        Theta := (-(S * normPdf d1 * sigma) / (2 * Real.sqrt T)
                    - r * K * Real.exp (-r * T) * normCdf d2) / 365
        Rho := K * T * Real.exp (-r * T) * normCdf d2 / 100 } ∧
    calculate_black_scholes S K T r sigma "Put" =
      { Price := K * Real.exp (-r * T) * normCdf (-d2) - S * normCdf (-d1)
        Delta := -normCdf (-d1)
        Gamma := normPdf d1 / (S * sigma * Real.sqrt T)
        Vega := S * Real.sqrt T * normPdf d1 / 100
        Theta := (-(S * normPdf d1 * sigma) / (2 * Real.sqrt T)
                    + r * K * Real.exp (-r * T) * normCdf (-d2)) / 365
        Rho := -(K * T * Real.exp (-r * T) * normCdf (-d2)) / 100 } := by
  subst hd2
  subst hd1
  exact ⟨calculate_black_scholes_call_eq S K T r sigma hT hs,
    calculate_black_scholes_put_eq S K T r sigma hT hs⟩

theorem bs_normal_branch_formulas_witness :
    calculate_black_scholes 1 1 1 0 1 "Call" =
      { Price := 1 * normCdf ((Real.log ((1:ℝ) / 1) + (0 + 0.5 * 1 ^ 2) * 1) / (1 * Real.sqrt 1)) - 1 * Real.exp (-0 * 1) * normCdf ((Real.log ((1:ℝ) / 1) + (0 + 0.5 * 1 ^ 2) * 1) / (1 * Real.sqrt 1) - 1 * Real.sqrt 1)
        Delta := normCdf ((Real.log ((1:ℝ) / 1) + (0 + 0.5 * 1 ^ 2) * 1) / (1 * Real.sqrt 1))
        Gamma := normPdf ((Real.log ((1:ℝ) / 1) + (0 + 0.5 * 1 ^ 2) * 1) / (1 * Real.sqrt 1)) / (1 * 1 * Real.sqrt 1)
        Vega := 1 * Real.sqrt 1 * normPdf ((Real.log ((1:ℝ) / 1) + (0 + 0.5 * 1 ^ 2) * 1) / (1 * Real.sqrt 1)) / 100
        Theta := (-(1 * normPdf ((Real.log ((1:ℝ) / 1) + (0 + 0.5 * 1 ^ 2) * 1) / (1 * Real.sqrt 1)) * 1) / (2 * Real.sqrt 1)
                    - 0 * 1 * Real.exp (-0 * 1) * normCdf ((Real.log ((1:ℝ) / 1) + (0 + 0.5 * 1 ^ 2) * 1) / (1 * Real.sqrt 1) - 1 * Real.sqrt 1)) / 365
        Rho := 1 * 1 * Real.exp (-0 * 1) * normCdf ((Real.log ((1:ℝ) / 1) + (0 + 0.5 * 1 ^ 2) * 1) / (1 * Real.sqrt 1) - 1 * Real.sqrt 1) / 100 } ∧
    calculate_black_scholes 1 1 1 0 1 "Put" =
      { Price := 1 * Real.exp (-0 * 1) * normCdf (-((Real.log ((1:ℝ) / 1) + (0 + 0.5 * 1 ^ 2) * 1) / (1 * Real.sqrt 1) - 1 * Real.sqrt 1)) - 1 * normCdf (-((Real.log ((1:ℝ) / 1) + (0 + 0.5 * 1 ^ 2) * 1) / (1 * Real.sqrt 1)))
        Delta := -normCdf (-((Real.log ((1:ℝ) / 1) + (0 + 0.5 * 1 ^ 2) * 1) / (1 * Real.sqrt 1)))
        Gamma := normPdf ((Real.log ((1:ℝ) / 1) + (0 + 0.5 * 1 ^ 2) * 1) / (1 * Real.sqrt 1)) / (1 * 1 * Real.sqrt 1)
        Vega := 1 * Real.sqrt 1 * normPdf ((Real.log ((1:ℝ) / 1) + (0 + 0.5 * 1 ^ 2) * 1) / (1 * Real.sqrt 1)) / 100
        Theta := (-(1 * normPdf ((Real.log ((1:ℝ) / 1) + (0 + 0.5 * 1 ^ 2) * 1) / (1 * Real.sqrt 1)) * 1) / (2 * Real.sqrt 1)
                    + 0 * 1 * Real.exp (-0 * 1) * normCdf (-((Real.log ((1:ℝ) / 1) + (0 + 0.5 * 1 ^ 2) * 1) / (1 * Real.sqrt 1) - 1 * Real.sqrt 1))) / 365
        Rho := -(1 * 1 * Real.exp (-0 * 1) * normCdf (-((Real.log ((1:ℝ) / 1) + (0 + 0.5 * 1 ^ 2) * 1) / (1 * Real.sqrt 1) - 1 * Real.sqrt 1))) / 100 } :=
  bs_normal_branch_formulas 1 1 1 0 1
    ((Real.log ((1:ℝ) / 1) + (0 + 0.5 * 1 ^ 2) * 1) / (1 * Real.sqrt 1))
    ((Real.log ((1:ℝ) / 1) + (0 + 0.5 * 1 ^ 2) * 1) / (1 * Real.sqrt 1) -
      1 * Real.sqrt 1)
    (by norm_num) (by norm_num) rfl rfl

lemma crr_backstep_iterate (discount p : ℝ) (payoff : ℕ → ℝ) :
    ∀ k j, (crr_backstep discount p)^[k] payoff j =
      spec_value_aux discount p payoff k j := by
  intro k
  induction k with
  | zero => intro j; rfl
  | succ k ih =>
      intro j
      rw [Function.iterate_succ_apply']
      show discount * (p * (crr_backstep discount p)^[k] payoff j +
          (1 - p) * (crr_backstep discount p)^[k] payoff (j + 1)) =
        spec_value_aux discount p payoff (k + 1) j
      rw [ih j, ih (j + 1)]
      rfl

/-- Claim C7: the lattice pricer's terminal layer, backward induction and
returned price.  `V j i` is the spec's `option_value[j, i]`; its terminal
column holds the payoff of `S * u^(N-j) * d^j`, each earlier column is the
discounted one-step expectation, and the price the code returns is
`V 0 0`. -/
theorem crr_tree_backward_induction (S K T r sigma : ℝ) (N : ℕ)
    (kind : String) (hT : 0 < T) (hs : 0 < sigma) (hN : 1 ≤ N) :
    (∀ j, spec_option_value (crr_discount T r N) (crr_p T r sigma N)
        (crr_terminal S K (crr_u T sigma N) (crr_down T sigma N) N kind) N j N =
      (if kind = "Call" then
        max (S * crr_u T sigma N ^ (N - j) * crr_down T sigma N ^ j - K) 0
      else
        max (K - S * crr_u T sigma N ^ (N - j) * crr_down T sigma N ^ j) 0)) ∧
    (∀ i, i < N → ∀ j,
      spec_option_value (crr_discount T r N) (crr_p T r sigma N)
        (crr_terminal S K (crr_u T sigma N) (crr_down T sigma N) N kind) N j i =
      crr_discount T r N * (crr_p T r sigma N *
          spec_option_value (crr_discount T r N) (crr_p T r sigma N)
            (crr_terminal S K (crr_u T sigma N) (crr_down T sigma N) N kind)
            N j (i + 1) +
        (1 - crr_p T r sigma N) *
          spec_option_value (crr_discount T r N) (crr_p T r sigma N)
            (crr_terminal S K (crr_u T sigma N) (crr_down T sigma N) N kind)
            N (j + 1) (i + 1))) ∧
    (calculate_crr_tree S K T r sigma N kind).Price =
      spec_option_value (crr_discount T r N) (crr_p T r sigma N)
        (crr_terminal S K (crr_u T sigma N) (crr_down T sigma N) N kind)
        N 0 0 := by
  refine ⟨?_, ?_, ?_⟩
  · intro j
    show spec_value_aux (crr_discount T r N) (crr_p T r sigma N)
      (crr_terminal S K (crr_u T sigma N) (crr_down T sigma N) N kind)
      (N - N) j = _
    rw [Nat.sub_self]
    rfl
  · intro i hi j
    show spec_value_aux (crr_discount T r N) (crr_p T r sigma N)
      (crr_terminal S K (crr_u T sigma N) (crr_down T sigma N) N kind)
      (N - i) j = _
    rw [show N - i = (N - (i + 1)) + 1 by omega]
    rfl
  · unfold calculate_crr_tree
    rw [if_neg (bs_not_degenerate hT hs)]
    exact crr_backstep_iterate (crr_discount T r N) (crr_p T r sigma N)
      (crr_terminal S K (crr_u T sigma N) (crr_down T sigma N) N kind) N 0

theorem crr_tree_backward_induction_witness :
    (∀ j, spec_option_value (crr_discount 1 0 1) (crr_p 1 0 1 1)
        (crr_terminal 1 1 (crr_u 1 1 1) (crr_down 1 1 1) 1 "Call") 1 j 1 =
      (if ("Call" : String) = "Call" then
        max ((1:ℝ) * crr_u 1 1 1 ^ (1 - j) * crr_down 1 1 1 ^ j - 1) 0
      else
        max ((1:ℝ) - 1 * crr_u 1 1 1 ^ (1 - j) * crr_down 1 1 1 ^ j) 0)) ∧
    (∀ i, i < 1 → ∀ j,
      spec_option_value (crr_discount 1 0 1) (crr_p 1 0 1 1)
        (crr_terminal 1 1 (crr_u 1 1 1) (crr_down 1 1 1) 1 "Call") 1 j i =
      crr_discount 1 0 1 * (crr_p 1 0 1 1 *
          spec_option_value (crr_discount 1 0 1) (crr_p 1 0 1 1)
            (crr_terminal 1 1 (crr_u 1 1 1) (crr_down 1 1 1) 1 "Call")
            1 j (i + 1) +
        (1 - crr_p 1 0 1 1) *
          spec_option_value (crr_discount 1 0 1) (crr_p 1 0 1 1)
            (crr_terminal 1 1 (crr_u 1 1 1) (crr_down 1 1 1) 1 "Call")
            1 (j + 1) (i + 1))) ∧
    (calculate_crr_tree 1 1 1 0 1 1 "Call").Price =
      spec_option_value (crr_discount 1 0 1) (crr_p 1 0 1 1)
        (crr_terminal 1 1 (crr_u 1 1 1) (crr_down 1 1 1) 1 "Call") 1 0 0 :=
  crr_tree_backward_induction 1 1 1 0 1 1 "Call" (by norm_num) (by norm_num)
    (by norm_num)

lemma calculate_stress_scenarios_eq (S K T r sigma : ℝ) (kind : String) :
    calculate_stress_scenarios S K T r sigma kind =
      [⟨"Crash -20%", S * (1 + -0.20), max 0.05 (sigma * (1 + 0.50)),
         (calculate_black_scholes (S * (1 + -0.20)) K T r
           (max 0.05 (sigma * (1 + 0.50))) kind).Price,
         (calculate_black_scholes (S * (1 + -0.20)) K T r
           (max 0.05 (sigma * (1 + 0.50))) kind).Price -
           (calculate_black_scholes S K T r sigma kind).Price⟩,
       ⟨"Bear -10%", S * (1 + -0.10), max 0.05 (sigma * (1 + 0.25)),
         (calculate_black_scholes (S * (1 + -0.10)) K T r
           (max 0.05 (sigma * (1 + 0.25))) kind).Price,
         (calculate_black_scholes (S * (1 + -0.10)) K T r
           (max 0.05 (sigma * (1 + 0.25))) kind).Price -
           (calculate_black_scholes S K T r sigma kind).Price⟩,
       ⟨"Base Case", S * (1 + 0.00), max 0.05 (sigma * (1 + 0.00)),
         (calculate_black_scholes (S * (1 + 0.00)) K T r
           (max 0.05 (sigma * (1 + 0.00))) kind).Price,
         (calculate_black_scholes (S * (1 + 0.00)) K T r
           (max 0.05 (sigma * (1 + 0.00))) kind).Price -
           (calculate_black_scholes S K T r sigma kind).Price⟩,
       ⟨"Bull +10%", S * (1 + 0.10), max 0.05 (sigma * (1 + -0.10)),
         (calculate_black_scholes (S * (1 + 0.10)) K T r
           (max 0.05 (sigma * (1 + -0.10))) kind).Price,
         (calculate_black_scholes (S * (1 + 0.10)) K T r
           (max 0.05 (sigma * (1 + -0.10))) kind).Price -
           (calculate_black_scholes S K T r sigma kind).Price⟩,
       ⟨"Rally +20%", S * (1 + 0.20), max 0.05 (sigma * (1 + -0.20)),
         (calculate_black_scholes (S * (1 + 0.20)) K T r
           (max 0.05 (sigma * (1 + -0.20))) kind).Price,
         (calculate_black_scholes (S * (1 + 0.20)) K T r
           (max 0.05 (sigma * (1 + -0.20))) kind).Price -
           (calculate_black_scholes S K T r sigma kind).Price⟩] := rfl

lemma bs_call_price_unit_inputs (sigma : ℝ) (hs : 0 < sigma) :
    (calculate_black_scholes 1 1 1 0 sigma "Call").Price =
      normCdf (sigma / 2) - normCdf (-(sigma / 2)) := by
  rw [calculate_black_scholes_call_eq 1 1 1 0 sigma (by norm_num) hs]
  dsimp only
  have hd1 : bs_d1 1 1 1 0 sigma = sigma / 2 := by
    unfold bs_d1
    rw [show (1 : ℝ) / 1 = 1 by norm_num, Real.log_one, Real.sqrt_one, mul_one]
    field_simp
    ring
  have hd2 : bs_d2 1 1 1 0 sigma = -(sigma / 2) := by
    unfold bs_d2
    rw [hd1, Real.sqrt_one, mul_one]
    ring
  rw [hd1, hd2, show (-0 : ℝ) * 1 = 0 by ring, Real.exp_zero]
  ring

/-- Claim C1 as stated is false on the code: with `sigma = 1/25 < 0.05`
the volatility floor raises the Base-Case volatility to `0.05`, so the
"Base Case" entry reprices at a different volatility than the base price
and its pnl is nonzero. -/
theorem stress_base_case_pnl_nonzero_low_vol :
    ∃ scen ∈ calculate_stress_scenarios 1 1 1 0 (1 / 25) "Call",
      scen.name = "Base Case" ∧ scen.pnl ≠ 0 := by
  refine ⟨⟨"Base Case", 1 * (1 + 0.00), max 0.05 ((1 / 25) * (1 + 0.00)),
      (calculate_black_scholes (1 * (1 + 0.00)) 1 1 0
        (max 0.05 ((1 / 25) * (1 + 0.00))) "Call").Price,
      (calculate_black_scholes (1 * (1 + 0.00)) 1 1 0
        (max 0.05 ((1 / 25) * (1 + 0.00))) "Call").Price -
        (calculate_black_scholes 1 1 1 0 (1 / 25) "Call").Price⟩,
    ?_, rfl, ?_⟩
  · rw [calculate_stress_scenarios_eq]
    exact List.mem_cons_of_mem _ (List.mem_cons_of_mem _ (List.mem_cons_self _ _))
  · show (calculate_black_scholes (1 * (1 + 0.00)) 1 1 0
        (max 0.05 ((1 / 25) * (1 + 0.00))) "Call").Price -
      (calculate_black_scholes 1 1 1 0 (1 / 25) "Call").Price ≠ 0
    rw [show (1 : ℝ) * (1 + 0.00) = 1 by norm_num,
      show (1 / 25 : ℝ) * (1 + 0.00) = 1 / 25 by norm_num,
      max_eq_left (by norm_num : (1 / 25 : ℝ) ≤ 0.05),
      bs_call_price_unit_inputs 0.05 (by norm_num),
      bs_call_price_unit_inputs (1 / 25) (by norm_num)]
    have h1 : normCdf ((1 / 25) / 2) < normCdf (0.05 / 2) :=
      normCdf_strictMono (by norm_num)
    have h2 : normCdf (-(0.05 / 2)) < normCdf (-((1 / 25) / 2)) :=
      normCdf_strictMono (by norm_num)
    have hgt : normCdf (0.05 / 2) - normCdf (-(0.05 / 2)) >
        normCdf ((1 / 25) / 2) - normCdf (-((1 / 25) / 2)) := by linarith
    exact sub_ne_zero.mpr hgt.ne'

/-- Claim C1, amended: whenever `sigma ≥ 0.05` (so that the scenario
engine's volatility floor leaves sigma unchanged), the "Base Case" entry
of the stress-test list has pnl exactly `0`. -/
theorem stress_base_case_pnl_zero (S K T r sigma : ℝ) (kind : String)
    (hs : 0.05 ≤ sigma) :
    ∀ scen ∈ calculate_stress_scenarios S K T r sigma kind,
      scen.name = "Base Case" → scen.pnl = 0 := by
  intro scen hmem hname
  rw [calculate_stress_scenarios_eq] at hmem
  simp only [List.mem_cons, List.not_mem_nil, or_false] at hmem
  rcases hmem with rfl | rfl | rfl | rfl | rfl
  · simp at hname
  · simp at hname
  · show (calculate_black_scholes (S * (1 + 0.00)) K T r
        (max 0.05 (sigma * (1 + 0.00))) kind).Price -
      (calculate_black_scholes S K T r sigma kind).Price = 0
    rw [show S * (1 + 0.00) = S by norm_num,
      show sigma * (1 + 0.00) = sigma by norm_num,
      max_eq_right hs, sub_self]
  · simp at hname
  · simp at hname

theorem stress_base_case_pnl_zero_witness :
    (calculate_black_scholes (1 * (1 + 0.00)) 1 1 0
        (max 0.05 (1 * (1 + 0.00))) "Call").Price -
      (calculate_black_scholes 1 1 1 0 1 "Call").Price = 0 :=
  stress_base_case_pnl_zero 1 1 1 0 1 "Call" (by norm_num)
    ⟨"Base Case", 1 * (1 + 0.00), max 0.05 (1 * (1 + 0.00)),
      (calculate_black_scholes (1 * (1 + 0.00)) 1 1 0
        (max 0.05 (1 * (1 + 0.00))) "Call").Price,
      (calculate_black_scholes (1 * (1 + 0.00)) 1 1 0
        (max 0.05 (1 * (1 + 0.00))) "Call").Price -
        (calculate_black_scholes 1 1 1 0 1 "Call").Price⟩
    (by rw [calculate_stress_scenarios_eq]
        exact List.mem_cons_of_mem _
          (List.mem_cons_of_mem _ (List.mem_cons_self _ _))) rfl
